import Mathlib

/-!
Verification development for the annotation-format converter
(`src/converter.py`).  The Python source is shallowly embedded below:
pixel coordinates and image dimensions are modelled as exact rationals
(the idealisation of Python floats), Python's fallible control flow
(`return 1` on error, raised exceptions) is modelled with `Except`, and
per-directory file I/O is modelled by passing the directory's parsed
contents explicitly.  Every definition is translated from the source
function named in its doc comment.
-/

/-- Failure modes of the converters, following the error taxonomy of the
design document: wrong input cardinality for the format-C input directory,
mismatched x/y point lists, a shape kind the converter does not support
(the source prints an error and returns 1), a label missing from the label
table (Python `list.index` raising `ValueError`), and out-of-range point
indexing (`IndexError` from `shape_points[1, 0]` on short point lists). -/
inductive ConvError where
  | InputCardinalityError
  | PointMismatchError
  | BadShapeKind
  | UnknownLabel
  | IndexError
deriving DecidableEq

/-- Python-level runtime errors that abort a function before it performs
any work. -/
inductive PyError where
  | moduleNotCallable
deriving DecidableEq

/-- One annotated region of a format-A file (`shape` dict in the source):
label, ordered point list, shape kind and optional group id. -/
structure Shape where
  label : String
  points : List (ℚ × ℚ)
  shape_type : String
  group_id : Option ℕ
deriving DecidableEq

/-- One format-A file (`poly_annotations` dict): image path (`none`
models a missing or unreadable `imagePath` key), image dimensions and
the ordered shape list. -/
structure AnnotationFile where
  imagePath : Option String
  imageWidth : ℚ
  imageHeight : ℚ
  shapes : List Shape
deriving DecidableEq

/-- Label table as returned by `extract_labelme_labels`: the structure
`[[labels], [label_ids]]` of the source. -/
structure LabelTable where
  labels : List String
  ids : List ℕ
deriving DecidableEq

/-- A box in the YOLO text line order: center x, center y, width, height. -/
structure Box where
  cx : ℚ
  cy : ℚ
  w : ℚ
  h : ℚ
deriving DecidableEq

/-- One region of a format-C (VIA) record: `shape_attributes` name and
point lists plus the `region_attributes` label.  The point lists hold the
raw JSON numbers, modelled as rationals. -/
structure ViaRegion where
  name : String
  all_points_x : List ℚ
  all_points_y : List ℚ
  label : String
deriving DecidableEq

/-- One format-C record: file name, image byte size and region list (the
constant empty `file_attributes` map is omitted). -/
structure ViaRecord where
  filename : String
  size : ℕ
  regions : List ViaRegion
deriving DecidableEq

def polygonStr : String := "polygon"

def rectangleStr : String := "rectangle"

def jpgDefault : String := ".jpg"

def dotStr : String := "."

def newlineStr : String := "\n"

def spaceStr : String := " "

/-- Python `int()` applied to an exact rational: truncation toward zero. -/
def pyInt (q : ℚ) : ℤ := Int.tdiv q.num (q.den : ℤ)

/-- Integer truncation of both coordinates of a point, back into ℚ. -/
def truncPoint (p : ℚ × ℚ) : ℚ × ℚ := ((pyInt p.1 : ℚ), (pyInt p.2 : ℚ))

/-- Minimum of a coordinate list, as the source's `min(shape_points[:, 0])`
over a nonempty array; `0` for the empty list (unreachable in the source,
where polygons have points). -/
def listMin : List ℚ → ℚ
  | [] => 0
  | x :: xs => xs.foldl min x

/-- Maximum of a coordinate list, as the source's `max(shape_points[:, 0])`. -/
def listMax : List ℚ → ℚ
  | [] => 0
  | x :: xs => xs.foldl max x

/-- Bounding box of a polygon, from `labelmepoly2yolo`
(converter.py lines 201-204): width and height are the coordinate spans
and the center is the span minimum plus half the span. -/
def polyBox (pts : List (ℚ × ℚ)) : Box :=
  let xs := pts.map Prod.fst
  let ys := pts.map Prod.snd
  let bw := listMax xs - listMin xs
  let bh := listMax ys - listMin ys
  { cx := listMin xs + bw / 2, cy := listMin ys + bh / 2, w := bw, h := bh }

/-- Raw (pixel-space, pre-normalization) rectangle box of
`labelmerect2yolo` (converter.py lines 120-123): width `P1.x - P0.x`,
height `P0.y - P1.y`, center x `P0.x + width / 2`, center y
`P1.y + height / 2`.  Width and height may be negative here; the absolute
value is applied only at emission. -/
def rectBoxRaw (p0 p1 : ℚ × ℚ) : Box :=
  let bw := p1.1 - p0.1
  let bh := p0.2 - p1.2
  { cx := p0.1 + bw / 2, cy := p1.2 + bh / 2, w := bw, h := bh }

/-- Normalized rectangle box as emitted by `labelmerect2yolo`
(converter.py lines 125-128): center divided by the image dimensions,
absolute value of width and height divided by the image dimensions. -/
def rectBoxYolo (p0 p1 : ℚ × ℚ) (imgW imgH : ℚ) : Box :=
  let r := rectBoxRaw p0 p1
  { cx := r.cx / imgW, cy := r.cy / imgH, w := |r.w / imgW|, h := |r.h / imgH| }

/-- Decimal digits of the fraction `n / d` (with `0 ≤ n < d`), by long
division, up to `fuel` digits.  Python prints floats with the shortest
round-tripping decimal; on the exact terminating decimals arising in the
claims the two renderings agree. -/
def fracDigits : ℕ → ℕ → ℕ → String
  | 0, _, _ => ""
  | fuel + 1, n, d =>
    if n = 0 then ""
    else toString (n * 10 / d) ++ fracDigits fuel (n * 10 % d) d

/-- Decimal rendering of a rational, modelling Python `str` on a float:
optional sign, integer part, and a fractional part that is `.0` when the
value is integral (Python prints `30.0`, `0.3`, `0.25`). -/
def formatRat (q : ℚ) : String :=
  let sign := if q < 0 then "-" else ""
  let n := q.num.natAbs
  let d := q.den
  let ds := fracDigits 32 (n % d) d
  sign ++ toString (n / d) ++ (if ds.isEmpty then ".0" else dotStr ++ ds)

/-- One YOLO text line, from `str([shape_label_id] + box_yolo)` with the
commas and brackets stripped (converter.py lines 129-131): the element
renderings contain no comma or bracket, so the result is the
space-separated concatenation. -/
def yoloLine (labelId : ℕ) (b : Box) : String :=
  toString labelId ++ spaceStr ++ formatRat b.cx ++ spaceStr ++ formatRat b.cy
    ++ spaceStr ++ formatRat b.w ++ spaceStr ++ formatRat b.h

/-- Label-id lookup `label_list[0].index(shape_label)`; Python raises
`ValueError` when the label is absent. -/
def labelIdOf (tbl : LabelTable) (label : String) : Except ConvError ℕ :=
  match tbl.labels.findIdx? (fun l => l == label) with
  | some i => Except.ok i
  | none => Except.error ConvError.UnknownLabel

/-- Per-shape step of `labelmerect2yolo` (converter.py lines 111-134):
a non-rectangle shape is skipped with a printed warning (`ok none`); for
a rectangle the label is resolved first, then the first two points are
read (fewer than two points would raise `IndexError` at
`shape_points[1, 0]`), and the normalized box line is produced. -/
def rectShapeLine (tbl : LabelTable) (imgW imgH : ℚ) (s : Shape) :
    Except ConvError (Option String) :=
  if s.shape_type = rectangleStr then
    match labelIdOf tbl s.label with
    | Except.error e => Except.error e
    | Except.ok i =>
      match s.points with
      | p0 :: p1 :: _ => Except.ok (some (yoloLine i (rectBoxYolo p0 p1 imgW imgH)))
      | _ => Except.error ConvError.IndexError
  else Except.ok none

/-- The shape loop of `labelmerect2yolo`: emitted lines in shape order,
skipped shapes contributing nothing, the first raised error aborting. -/
def rectLines (tbl : LabelTable) (imgW imgH : ℚ) : List Shape → Except ConvError (List String)
  | [] => Except.ok []
  | s :: ss =>
    match rectShapeLine tbl imgW imgH s with
    | Except.error e => Except.error e
    | Except.ok none => rectLines tbl imgW imgH ss
    | Except.ok (some line) =>
      match rectLines tbl imgW imgH ss with
      | Except.error e => Except.error e
      | Except.ok rest => Except.ok (line :: rest)

/-- Content of the text file `labelmerect2yolo` writes for one
annotation file: each emitted line followed by a newline. -/
def labelmerect2yolo_file (tbl : LabelTable) (f : AnnotationFile) : Except ConvError String :=
  match rectLines tbl f.imageWidth f.imageHeight f.shapes with
  | Except.error e => Except.error e
  | Except.ok ls => Except.ok (String.join (ls.map (fun l => l ++ newlineStr)))

/-- Splitting a character list at every dot, as Python `str.split(".")`
does on the underlying characters: the empty string yields one empty
group, and consecutive dots yield empty groups. -/
def splitDots : List Char → List (List Char)
  | [] => [[]]
  | c :: cs =>
    let r := splitDots cs
    if c = Char.ofNat 46 then [] :: r
    else
      match r with
      | [] => [[c]]
      | g :: gs => (c :: g) :: gs

/-- The last component of a path split at dots: Python
`path.split(".")[-1]` (the whole path when it has no dot). -/
def lastSplitComponent (p : String) : String :=
  String.mk (List.getLastD (splitDots p.data) [])

/-- Image-format suffix detection shared by the converters
(converter.py lines 95-101): default `.jpg`; inside `try`, the suffix is
`.` plus the part of `imagePath` after its last dot (the whole path when
it has no dot); any exception while reading the path (missing key,
non-string value — modelled by `none`) keeps the default and prints a
warning.  Returns the suffix and whether the warning was printed. -/
def detect_image_format (imagePath : Option String) : String × Bool :=
  match imagePath with
  | none => (jpgDefault, true)
  | some p => (dotStr ++ lastSplitComponent p, false)

/-- The label-collection step of `extract_labelme_labels`
(converter.py lines 37-40): append the label unless already present. -/
def addLabel (acc : List String) (l : String) : List String :=
  if l ∈ acc then acc else acc ++ [l]

/-- All shape labels of a corpus, in file-then-shape order. -/
def corpusLabels (corpus : List AnnotationFile) : List String :=
  corpus.flatMap (fun f => f.shapes.map (fun s => s.label))

/-- Embedding of `extract_labelme_labels` (converter.py lines 14-47):
collect the distinct labels in first-occurrence order, sort them, and
pair them with the ids `0..N-1`. -/
def extract_labelme_labels (corpus : List AnnotationFile) : LabelTable :=
  let collected := (corpusLabels corpus).foldl addLabel []
  let sorted := List.insertionSort (fun a b => a ≤ b) collected
  { labels := sorted, ids := List.range sorted.length }

/-- Effectful map over a list: the source's per-item loops that `return 1`
on the first failing item. -/
def mapExcept {α β : Type} (f : α → Except ConvError β) : List α → Except ConvError (List β)
  | [] => Except.ok []
  | a :: as =>
    match f a with
    | Except.error e => Except.error e
    | Except.ok b =>
      match mapExcept f as with
      | Except.error e => Except.error e
      | Except.ok bs => Except.ok (b :: bs)

/-- Per-shape step of `labelme2via` (converter.py lines 357-379): any
non-polygon shape is a hard failure (`return 1`); a polygon becomes one
region whose point lists are the integer-truncated coordinates. -/
def labelmeShapeToRegion (s : Shape) : Except ConvError ViaRegion :=
  if s.shape_type = polygonStr then
    Except.ok { name := polygonStr
                all_points_x := s.points.map (fun p => (pyInt p.1 : ℚ))
                all_points_y := s.points.map (fun p => (pyInt p.2 : ℚ))
                label := s.label }
  else Except.error ConvError.BadShapeKind

/-- One annotation record built by `labelme2via` for one input file
(converter.py lines 381-387); `fname` is the image file name and `size`
its byte size (an external lookup in the source). -/
def labelme2via_file (f : AnnotationFile) (fname : String) (size : ℕ) :
    Except ConvError ViaRecord :=
  match mapExcept labelmeShapeToRegion f.shapes with
  | Except.error e => Except.error e
  | Except.ok rs => Except.ok { filename := fname, size := size, regions := rs }

/-- Python dict assignment `annotations[key] = ann` on an
insertion-ordered dictionary: an existing key keeps its position and its
value is overwritten; a new key is appended at the end. -/
def dictInsert (doc : List (String × ViaRecord)) (k : String) (v : ViaRecord) :
    List (String × ViaRecord) :=
  match doc with
  | [] => [(k, v)]
  | (k', v') :: rest =>
    if k' = k then (k', v) :: rest
    else (k', v') :: dictInsert rest k v

/-- The file loop of `labelme2via`, carrying the annotations dict built
so far: each successful file's record is assigned into the dict under
the key file name concatenated with byte size (converter.py line 389) —
a colliding key silently overwrites the earlier record — and the first
hard failure aborts the run. -/
def labelme2via_doc_aux (acc : List (String × ViaRecord)) :
    List (String × AnnotationFile × ℕ) → Except ConvError (List (String × ViaRecord))
  | [] => Except.ok acc
  | e :: es =>
    match labelme2via_file e.2.1 e.1 e.2.2 with
    | Except.error err => Except.error err
    | Except.ok r => labelme2via_doc_aux (dictInsert acc (e.1 ++ toString e.2.2) r) es

/-- The whole format-C document `labelme2via` serializes at the end of a
run (converter.py lines 333-400): the insertion-ordered dict keyed by
file name concatenated with byte size, written only after every file
succeeded; the first hard failure aborts the run with no document
written (`Except.error`). -/
def labelme2via_doc (corpus : List (String × AnnotationFile × ℕ)) :
    Except ConvError (List (String × ViaRecord)) :=
  labelme2via_doc_aux [] corpus

/-- Per-region step of `via2labelme` (converter.py lines 449-473): the
region kind is checked first (`return 1` on non-polygon), then the x/y
point lists must have equal length (`return 1` otherwise), and the shape
gets the integer-truncated zipped points, the region's label, and no
group id. -/
def viaRegionToShape (r : ViaRegion) : Except ConvError Shape :=
  if r.name = polygonStr then
    if r.all_points_x.length = r.all_points_y.length then
      Except.ok { label := r.label
                  points := (r.all_points_x.zip r.all_points_y).map truncPoint
                  shape_type := r.name
                  group_id := none }
    else Except.error ConvError.PointMismatchError
  else Except.error ConvError.BadShapeKind

/-- The format-A annotation `via2labelme` writes for one record
(converter.py lines 430-481); image dimensions come from reading the
image (external).  An `Except.error` result means the record's output
file is never written (the source returns before `json.dumps`).  The
cosmetic fields (format-version tag, flags, the two random colors) are
omitted from the model. -/
def viaRecordToLabelme (r : ViaRecord) (imgW imgH : ℚ) : Except ConvError AnnotationFile :=
  match mapExcept viaRegionToShape r.regions with
  | Except.error e => Except.error e
  | Except.ok shapes =>
    Except.ok { imagePath := some r.filename, imageWidth := imgW
                imageHeight := imgH, shapes := shapes }

/-- A whole `via2labelme` run (converter.py lines 403-485): `docs` is the
list of parsed JSON documents found in the input directory; unless there
is exactly one, the run fails before reading anything (converter.py
lines 412-421).  `dims` supplies each referenced image's dimensions. -/
def via2labelme_run (docs : List (List ViaRecord)) (dims : String → ℚ × ℚ) :
    Except ConvError (List AnnotationFile) :=
  match docs with
  | [] => Except.error ConvError.InputCardinalityError
  | [d] => mapExcept (fun r => viaRecordToLabelme r (dims r.filename).1 (dims r.filename).2) d
  | _ :: _ :: _ => Except.error ConvError.InputCardinalityError

/-- Embedding of `create_empty_txt_yolo` (converter.py lines 50-71).  The
source's first statement is `img_list = glob(input_dir + image_format)`,
but `glob` names the imported module (the function is `glob.glob`), so
the call raises `TypeError: module object is not callable` before any
file is listed, examined or created; the directory contents are returned
unchanged inside the error-free path, which is never reached. -/
def create_empty_txt_yolo (_dirFiles : List String) (_image_format : String) :
    Except PyError (List String) :=
  Except.error PyError.moduleNotCallable

/-- The scenario file from the spec: image 100 by 100 with one rectangle
shape labelled cat with corner points (10, 10) and (50, 40). -/
def catFile : AnnotationFile :=
  { imagePath := some ("cat.jpg")
    imageWidth := 100
    imageHeight := 100
    shapes := [{ label := "cat"
                 points := [(10, 10), (50, 40)]
                 shape_type := rectangleStr
                 group_id := none }] }

/-- Label table mapping cat to id 0. -/
def catTable : LabelTable := { labels := ["cat"], ids := [0] }

/-- Concrete triangle used to witness C2. -/
def triPts : List (ℚ × ℚ) := [(0, 0), (4, 2), (2, 6)]

/-- Sample polygon shape labelled pear, for the C4 witness. -/
def shapePear : Shape :=
  { label := "pear", points := [(0, 0), (1, 1), (0, 1)]
    shape_type := polygonStr, group_id := none }

/-- Sample polygon shape labelled apple, for the C4 witness. -/
def shapeApple : Shape :=
  { label := "apple", points := [(2, 2), (3, 3), (2, 3)]
    shape_type := polygonStr, group_id := none }

/-- Two-shape file, pear first. -/
def filePearApple : AnnotationFile :=
  { imagePath := none, imageWidth := 10, imageHeight := 10
    shapes := [shapePear, shapeApple] }

/-- Two-shape file, apple first. -/
def fileApplePear : AnnotationFile :=
  { imagePath := none, imageWidth := 10, imageHeight := 10
    shapes := [shapeApple, shapePear] }

/-- One-shape file. -/
def filePearOnly : AnnotationFile :=
  { imagePath := none, imageWidth := 10, imageHeight := 10
    shapes := [shapePear] }

/-- The region `labelme2via` builds for a polygon shape. -/
def polyRegion (s : Shape) : ViaRegion :=
  { name := polygonStr
    all_points_x := s.points.map (fun p => (pyInt p.1 : ℚ))
    all_points_y := s.points.map (fun p => (pyInt p.2 : ℚ))
    label := s.label }

/-- The per-shape image of the A-to-C-to-A round trip: same label and
kind, coordinates integer-truncated. -/
def truncShape (s : Shape) : Shape :=
  { label := s.label, points := s.points.map truncPoint
    shape_type := polygonStr, group_id := none }

/-- Polygon file with fractional coordinates, for the C3 witness. -/
def fracPolyFile : AnnotationFile :=
  { imagePath := some ("img.png"), imageWidth := 8, imageHeight := 8
    shapes := [{ label := "roof"
                 points := [(1 / 2, 3 / 2), (5 / 2, 1 / 2), (7 / 2, 7 / 2)]
                 shape_type := polygonStr, group_id := none }] }

/-- File containing a circle shape, for the C5 witness. -/
def circleShapeFile : AnnotationFile :=
  { imagePath := none, imageWidth := 4, imageHeight := 4
    shapes := [{ label := "dot", points := [(1, 1), (2, 2)]
                 shape_type := "circle", group_id := none }] }

/-- Record holding a single non-polygon region whose x and y point lists
have unequal lengths. -/
def mismatchedCircleRecord : ViaRecord :=
  { filename := "img.jpg", size := 9
    regions := [{ name := "circle", all_points_x := [0], all_points_y := []
                  label := "dot" }] }

/-- Record holding a single polygon region whose x and y point lists
have unequal lengths. -/
def mismatchedPolyRecord : ViaRecord :=
  { filename := "img.jpg", size := 9
    regions := [{ name := polygonStr, all_points_x := [0, 1], all_points_y := [0]
                  label := "dot" }] }

/-- First file of the colliding corpus for the C3 counterexample: from
input `a.jpg.json` with image format `.jpg`, the source derives the
image name `a.jpg.jpg`. -/
def firstCollidingFile : AnnotationFile :=
  { imagePath := some ("a.jpg"), imageWidth := 4, imageHeight := 4
    shapes := [{ label := "first", points := [], shape_type := polygonStr
                 group_id := none }] }

/-- Second file of the colliding corpus: from input `a.json.json` with
image format `.jpg`, Python `replace` substitutes every occurrence of
`.json`, so the image name is again `a.jpg.jpg`; both names reference
the same image file on disk, hence the same byte size. -/
def secondCollidingFile : AnnotationFile :=
  { imagePath := some ("a.jpg"), imageWidth := 4, imageHeight := 4
    shapes := [{ label := "second", points := [], shape_type := polygonStr
                 group_id := none }] }

/-- Corpus whose two entries share the format-C identity key
`a.jpg.jpg` concatenated with byte size 5. -/
def collidingCorpus : List (String × AnnotationFile × ℕ) :=
  [(("a.jpg.jpg" : String), firstCollidingFile, (5 : ℕ)),
   (("a.jpg.jpg" : String), secondCollidingFile, (5 : ℕ))]

/-- Two-file polygon corpus with distinct identity keys, for the C3
witness. -/
def roundtripCorpus : List (String × AnnotationFile × ℕ) :=
  [(("img.png" : String), fracPolyFile, (64 : ℕ)),
   (("other.jpg" : String), filePearOnly, (9 : ℕ))]

/-- Two AnnotationFiles that are the same file with the order of the
shapes permuted. -/
structure FilePerm (f g : AnnotationFile) : Prop where
  path_eq : f.imagePath = g.imagePath
  width_eq : f.imageWidth = g.imageWidth
  height_eq : f.imageHeight = g.imageHeight
  shapes_perm : List.Perm f.shapes g.shapes

/-- Two corpora related by permuting the order of the files and the
order of the shapes within each file. -/
def CorpusPerm (c₁ c₂ : List AnnotationFile) : Prop :=
  ∃ mid, List.Perm c₁ mid ∧ List.Forall₂ FilePerm mid c₂

/-- Decidable equality for `Except` results, by cases on the constructors. -/
instance {e a : Type} [DecidableEq e] [DecidableEq a] : DecidableEq (Except e a) := fun x y =>
  match x, y with
  | Except.error u, Except.error v => decidable_of_iff (u = v) (by simp)
  | Except.ok u, Except.ok v => decidable_of_iff (u = v) (by simp)
  | Except.error _, Except.ok _ => isFalse (fun hc => Except.noConfusion hc)
  | Except.ok _, Except.error _ => isFalse (fun hc => Except.noConfusion hc)


/-- C1: for an AnnotationFile with exactly one rectangle shape with points
[[10,10],[50,40]], image 100 by 100 and label cat mapped to id 0, the
rectangle A-to-B converter emits exactly the newline-terminated line
`0 0.3 0.25 0.4 0.3`. -/
theorem c1_rect_scenario :
    labelmerect2yolo_file catTable catFile = Except.ok ("0 0.3 0.25 0.4 0.3\n") := by
  have h1 : labelmerect2yolo_file catTable catFile =
      Except.ok (yoloLine 0 (rectBoxYolo ((10 : ℚ), (10 : ℚ)) ((50 : ℚ), (40 : ℚ)) 100 100)
        ++ newlineStr) := rfl
  have hb : rectBoxYolo ((10 : ℚ), (10 : ℚ)) ((50 : ℚ), (40 : ℚ)) 100 100 =
      { cx := ⟨3, 10, by decide, by decide⟩
        cy := ⟨1, 4, by decide, by decide⟩
        w := ⟨2, 5, by decide, by decide⟩
        h := ⟨3, 10, by decide, by decide⟩ } := by
    simp only [rectBoxYolo, rectBoxRaw, Box.mk.injEq]
    refine ⟨?_, ?_, ?_, ?_⟩
    · rw [Rat.mk'_eq_divInt, Rat.divInt_eq_div]; norm_num
    · rw [Rat.mk'_eq_divInt, Rat.divInt_eq_div]; norm_num
    · rw [Rat.mk'_eq_divInt, Rat.divInt_eq_div, abs_of_nonneg (by norm_num : (0 : ℚ) ≤ (((50 : ℚ), (40 : ℚ)).1 - ((10 : ℚ), (10 : ℚ)).1) / 100)]
      norm_num
    · rw [Rat.mk'_eq_divInt, Rat.divInt_eq_div, abs_of_nonpos (by norm_num : (((10 : ℚ), (10 : ℚ)).2 - ((50 : ℚ), (40 : ℚ)).2) / 100 ≤ 0)]
      norm_num
  rw [h1, hb]
  decide

lemma foldl_min_le_init (a : ℚ) (l : List ℚ) : l.foldl min a ≤ a := by
  induction l generalizing a with
  | nil => exact le_refl a
  | cons x xs ih => exact le_trans (ih (min a x)) (min_le_left a x)

lemma foldl_min_le (a : ℚ) (l : List ℚ) : ∀ y ∈ l, l.foldl min a ≤ y := by
  induction l generalizing a with
  | nil => intro y hy; cases hy
  | cons x xs ih =>
    intro y hy
    rcases List.mem_cons.mp hy with h | h
    · subst h
      exact le_trans (foldl_min_le_init (min a y) xs) (min_le_right a y)
    · exact ih (min a x) y h

lemma foldl_min_mem (a : ℚ) (l : List ℚ) : l.foldl min a = a ∨ l.foldl min a ∈ l := by
  induction l generalizing a with
  | nil => left; rfl
  | cons x xs ih =>
    rcases ih (min a x) with h | h
    · rcases min_choice a x with hm | hm
      · left; rw [List.foldl_cons, h, hm]
      · right; rw [List.foldl_cons, h, hm]; exact List.mem_cons_self x xs
    · right; exact List.mem_cons_of_mem x h

lemma foldl_max_ge_init (a : ℚ) (l : List ℚ) : a ≤ l.foldl max a := by
  induction l generalizing a with
  | nil => exact le_refl a
  | cons x xs ih => exact le_trans (le_max_left a x) (ih (max a x))

lemma foldl_max_ge (a : ℚ) (l : List ℚ) : ∀ y ∈ l, y ≤ l.foldl max a := by
  induction l generalizing a with
  | nil => intro y hy; cases hy
  | cons x xs ih =>
    intro y hy
    rcases List.mem_cons.mp hy with h | h
    · subst h
      exact le_trans (le_max_right a y) (foldl_max_ge_init (max a y) xs)
    · exact ih (max a x) y h

lemma foldl_max_mem (a : ℚ) (l : List ℚ) : l.foldl max a = a ∨ l.foldl max a ∈ l := by
  induction l generalizing a with
  | nil => left; rfl
  | cons x xs ih =>
    rcases ih (max a x) with h | h
    · rcases max_choice a x with hm | hm
      · left; rw [List.foldl_cons, h, hm]
      · right; rw [List.foldl_cons, h, hm]; exact List.mem_cons_self x xs
    · right; exact List.mem_cons_of_mem x h

lemma listMin_le (l : List ℚ) : ∀ y ∈ l, listMin l ≤ y := by
  cases l with
  | nil => intro y hy; cases hy
  | cons x xs =>
    intro y hy
    rcases List.mem_cons.mp hy with h | h
    · subst h; exact foldl_min_le_init y xs
    · exact foldl_min_le x xs y h

lemma listMin_mem (l : List ℚ) (h : l ≠ []) : listMin l ∈ l := by
  cases l with
  | nil => exact absurd rfl h
  | cons x xs =>
    rcases foldl_min_mem x xs with hm | hm
    · rw [listMin, hm]; exact List.mem_cons_self x xs
    · exact List.mem_cons_of_mem x hm

lemma listMax_ge (l : List ℚ) : ∀ y ∈ l, y ≤ listMax l := by
  cases l with
  | nil => intro y hy; cases hy
  | cons x xs =>
    intro y hy
    rcases List.mem_cons.mp hy with h | h
    · subst h; exact foldl_max_ge_init y xs
    · exact foldl_max_ge x xs y h

lemma listMax_mem (l : List ℚ) (h : l ≠ []) : listMax l ∈ l := by
  cases l with
  | nil => exact absurd rfl h
  | cons x xs =>
    rcases foldl_max_mem x xs with hm | hm
    · rw [listMax, hm]; exact List.mem_cons_self x xs
    · exact List.mem_cons_of_mem x hm

lemma polyBox_cx_sub (pts : List (ℚ × ℚ)) :
    (polyBox pts).cx - (polyBox pts).w / 2 = listMin (pts.map Prod.fst) := by
  simp only [polyBox]; ring

lemma polyBox_cx_add (pts : List (ℚ × ℚ)) :
    (polyBox pts).cx + (polyBox pts).w / 2 = listMax (pts.map Prod.fst) := by
  simp only [polyBox]; ring

lemma polyBox_cy_sub (pts : List (ℚ × ℚ)) :
    (polyBox pts).cy - (polyBox pts).h / 2 = listMin (pts.map Prod.snd) := by
  simp only [polyBox]; ring

lemma polyBox_cy_add (pts : List (ℚ × ℚ)) :
    (polyBox pts).cy + (polyBox pts).h / 2 = listMax (pts.map Prod.snd) := by
  simp only [polyBox]; ring

/-- C2: for every polygon shape with at least three points, the polygon
bounding box (coordinate-wise min/max, center at the midpoint, width and
height the spans) contains every point of the polygon, is the minimal
axis-aligned box doing so, and has nonnegative — possibly zero, for
degenerate polygons — width and height; the formula divides only by the
constant 2, so no division error can arise. -/
theorem c2_polybox_minimal (pts : List (ℚ × ℚ)) (h3 : 3 ≤ pts.length) :
    (∀ p ∈ pts,
      (polyBox pts).cx - (polyBox pts).w / 2 ≤ p.1 ∧
      p.1 ≤ (polyBox pts).cx + (polyBox pts).w / 2 ∧
      (polyBox pts).cy - (polyBox pts).h / 2 ≤ p.2 ∧
      p.2 ≤ (polyBox pts).cy + (polyBox pts).h / 2) ∧
    (∀ a b c d : ℚ,
      (∀ p ∈ pts, a ≤ p.1 ∧ p.1 ≤ b ∧ c ≤ p.2 ∧ p.2 ≤ d) →
      (polyBox pts).w ≤ b - a ∧ (polyBox pts).h ≤ d - c) ∧
    0 ≤ (polyBox pts).w ∧ 0 ≤ (polyBox pts).h := by
  have hne : pts ≠ [] := by
    intro h; rw [h] at h3; simp at h3
  have hxne : pts.map Prod.fst ≠ [] := by
    simpa using hne
  have hyne : pts.map Prod.snd ≠ [] := by
    simpa using hne
  have hminx := listMin_mem (pts.map Prod.fst) hxne
  have hmaxx := listMax_mem (pts.map Prod.fst) hxne
  have hminy := listMin_mem (pts.map Prod.snd) hyne
  have hmaxy := listMax_mem (pts.map Prod.snd) hyne
  have hw : (polyBox pts).w = listMax (pts.map Prod.fst) - listMin (pts.map Prod.fst) := rfl
  have hh : (polyBox pts).h = listMax (pts.map Prod.snd) - listMin (pts.map Prod.snd) := rfl
  refine ⟨?_, ?_, ?_, ?_⟩
  · intro p hp
    rw [polyBox_cx_sub, polyBox_cx_add, polyBox_cy_sub, polyBox_cy_add]
    exact ⟨listMin_le _ _ (List.mem_map_of_mem Prod.fst hp),
      listMax_ge _ _ (List.mem_map_of_mem Prod.fst hp),
      listMin_le _ _ (List.mem_map_of_mem Prod.snd hp),
      listMax_ge _ _ (List.mem_map_of_mem Prod.snd hp)⟩
  · intro a b c d hbox
    rcases List.mem_map.mp hminx with ⟨pmn, hpmn, hpmne⟩
    rcases List.mem_map.mp hmaxx with ⟨pmx, hpmx, hpmxe⟩
    rcases List.mem_map.mp hminy with ⟨qmn, hqmn, hqmne⟩
    rcases List.mem_map.mp hmaxy with ⟨qmx, hqmx, hqmxe⟩
    constructor
    · rw [hw, ← hpmne, ← hpmxe]
      exact sub_le_sub (hbox pmx hpmx).2.1 (hbox pmn hpmn).1
    · rw [hh, ← hqmne, ← hqmxe]
      exact sub_le_sub (hbox qmx hqmx).2.2.2 (hbox qmn hqmn).2.2.1
  · rw [hw]
    exact sub_nonneg.mpr (listMax_ge _ _ hminx)
  · rw [hh]
    exact sub_nonneg.mpr (listMax_ge _ _ hminy)


/-- Witness for C2 at a concrete triangle. -/
theorem c2_polybox_minimal_witness :
    3 ≤ triPts.length ∧ (0 ≤ (polyBox triPts).w ∧ 0 ≤ (polyBox triPts).h) :=
  ⟨by decide, (c2_polybox_minimal triPts (by decide)).2.2⟩

/-- C10: the box emitted by the rectangle A-to-B converter is invariant
under swapping the two corner points: its center is the coordinate-wise
midpoint and its width and height are the absolute coordinate
differences, each scaled by the (positive) image dimensions. -/
theorem c10_rect_swap (p0 p1 : ℚ × ℚ) (imgW imgH : ℚ)
    (hW : 0 < imgW) (hH : 0 < imgH) :
    rectBoxYolo p1 p0 imgW imgH = rectBoxYolo p0 p1 imgW imgH ∧
    rectBoxYolo p0 p1 imgW imgH =
      { cx := (p0.1 + p1.1) / 2 / imgW
        cy := (p0.2 + p1.2) / 2 / imgH
        w := |p1.1 - p0.1| / imgW
        h := |p0.2 - p1.2| / imgH } := by
  have key : ∀ a b : ℚ × ℚ, rectBoxYolo a b imgW imgH =
      { cx := (a.1 + b.1) / 2 / imgW
        cy := (a.2 + b.2) / 2 / imgH
        w := |b.1 - a.1| / imgW
        h := |a.2 - b.2| / imgH } := by
    intro a b
    simp only [rectBoxYolo, rectBoxRaw, Box.mk.injEq]
    refine ⟨by ring_nf, by ring_nf, ?_, ?_⟩
    · rw [abs_div, abs_of_pos hW]
    · rw [abs_div, abs_of_pos hH]
  refine ⟨?_, key p0 p1⟩
  rw [key p1 p0, key p0 p1]
  simp only [Box.mk.injEq]
  exact ⟨by ring_nf, by ring_nf, by rw [abs_sub_comm], by rw [abs_sub_comm]⟩

/-- Witness for C10 at the corner points of the C1 scenario. -/
theorem c10_rect_swap_witness :
    (0 : ℚ) < 100 ∧
    rectBoxYolo (50, 40) (10, 10) 100 100 = rectBoxYolo (10, 10) (50, 40) 100 100 :=
  ⟨by decide,
    (c10_rect_swap (10, 10) (50, 40) 100 100 (by decide) (by decide)).1⟩

lemma mem_addLabel (acc : List String) (a x : String) :
    x ∈ addLabel acc a ↔ x ∈ acc ∨ x = a := by
  unfold addLabel
  by_cases h : a ∈ acc
  · rw [if_pos h]
    constructor
    · exact fun hx => Or.inl hx
    · rintro (hx | rfl)
      · exact hx
      · exact h
  · rw [if_neg h]
    simp [List.mem_append]

lemma nodup_addLabel (acc : List String) (a : String) (h : acc.Nodup) :
    (addLabel acc a).Nodup := by
  unfold addLabel
  by_cases hm : a ∈ acc
  · rwa [if_pos hm]
  · rw [if_neg hm]
    refine List.Nodup.append h (List.nodup_singleton a) ?_
    intro x hx hxa
    rw [List.mem_singleton] at hxa
    exact hm (hxa ▸ hx)

lemma foldl_addLabel_mem (l : List String) (acc : List String) (x : String) :
    x ∈ l.foldl addLabel acc ↔ x ∈ acc ∨ x ∈ l := by
  induction l generalizing acc with
  | nil => simp
  | cons a as ih =>
    rw [List.foldl_cons, ih, mem_addLabel]
    simp only [List.mem_cons]
    tauto

lemma foldl_addLabel_nodup (l : List String) (acc : List String) (h : acc.Nodup) :
    (l.foldl addLabel acc).Nodup := by
  induction l generalizing acc with
  | nil => exact h
  | cons a as ih => exact ih (addLabel acc a) (nodup_addLabel acc a h)

lemma extract_eq_of_labels_perm (c₁ c₂ : List AnnotationFile)
    (h : List.Perm (corpusLabels c₁) (corpusLabels c₂)) :
    extract_labelme_labels c₁ = extract_labelme_labels c₂ := by
  have d₁ : ((corpusLabels c₁).foldl addLabel []).Nodup :=
    foldl_addLabel_nodup _ _ List.nodup_nil
  have d₂ : ((corpusLabels c₂).foldl addLabel []).Nodup :=
    foldl_addLabel_nodup _ _ List.nodup_nil
  have hp : List.Perm ((corpusLabels c₁).foldl addLabel [])
      ((corpusLabels c₂).foldl addLabel []) := by
    rw [List.perm_ext_iff_of_nodup d₁ d₂]
    intro a
    rw [foldl_addLabel_mem, foldl_addLabel_mem]
    simp [h.mem_iff]
  have hs : List.insertionSort (fun a b => a ≤ b) ((corpusLabels c₁).foldl addLabel []) =
      List.insertionSort (fun a b => a ≤ b) ((corpusLabels c₂).foldl addLabel []) := by
    refine List.eq_of_perm_of_sorted
      ((List.perm_insertionSort _ _).trans (hp.trans (List.perm_insertionSort _ _).symm))
      (List.sorted_insertionSort _ _) (List.sorted_insertionSort _ _)
  simp only [extract_labelme_labels, hs]

lemma forall₂_corpusLabels_perm {a b : List AnnotationFile}
    (hab : List.Forall₂ FilePerm a b) :
    List.Perm (corpusLabels a) (corpusLabels b) := by
  induction hab with
  | nil => exact List.Perm.refl []
  | cons hfg _ ih =>
    simp only [corpusLabels, List.flatMap_cons]
    exact List.Perm.append (hfg.shapes_perm.map _) ih

/-- C4: the label table is order-independent — permuting the corpus's
files and each file's shapes yields an identical table — and the table is
the distinct labels of the corpus sorted ascending with the ids assigned
densely as `0..N-1` by sorted position. -/
theorem c4_label_table_order_independent (c₁ c₂ : List AnnotationFile)
    (h : CorpusPerm c₁ c₂) :
    extract_labelme_labels c₁ = extract_labelme_labels c₂ ∧
    List.Sorted (fun a b => a ≤ b) (extract_labelme_labels c₁).labels ∧
    (extract_labelme_labels c₁).labels.Nodup ∧
    (∀ l, l ∈ (extract_labelme_labels c₁).labels ↔ l ∈ corpusLabels c₁) ∧
    (extract_labelme_labels c₁).ids =
      List.range (extract_labelme_labels c₁).labels.length := by
  obtain ⟨c', hperm, hf2⟩ :=
    (h : ∃ mid, List.Perm c₁ mid ∧ List.Forall₂ FilePerm mid c₂)
  have hlabels : List.Perm (corpusLabels c₁) (corpusLabels c₂) := by
    have step1 : List.Perm (corpusLabels c₁) (corpusLabels c') := by
      simp only [corpusLabels]
      exact List.Perm.flatMap_right _ hperm
    exact step1.trans (forall₂_corpusLabels_perm hf2)
  refine ⟨extract_eq_of_labels_perm c₁ c₂ hlabels, ?_, ?_, ?_, rfl⟩
  · exact List.sorted_insertionSort _ _
  · exact (List.perm_insertionSort _ _).nodup_iff.mpr
      (foldl_addLabel_nodup _ _ List.nodup_nil)
  · intro l
    rw [show (extract_labelme_labels c₁).labels =
        List.insertionSort (fun a b => a ≤ b) ((corpusLabels c₁).foldl addLabel []) from rfl,
      (List.perm_insertionSort _ _).mem_iff, foldl_addLabel_mem]
    simp


/-- Witness for C4: a concrete corpus, with its files reordered and the
shapes of one file reordered, yields the identical label table. -/
theorem c4_label_table_order_independent_witness :
    CorpusPerm [filePearOnly, filePearApple] [fileApplePear, filePearOnly] ∧
    extract_labelme_labels [filePearOnly, filePearApple] =
      extract_labelme_labels [fileApplePear, filePearOnly] := by
  have hcp : CorpusPerm [filePearOnly, filePearApple] [fileApplePear, filePearOnly] := by
    refine ⟨[filePearApple, filePearOnly], List.Perm.swap _ _ _, ?_⟩
    refine List.Forall₂.cons ⟨rfl, rfl, rfl, ?_⟩
      (List.Forall₂.cons ⟨rfl, rfl, rfl, List.Perm.refl _⟩ List.Forall₂.nil)
    exact List.Perm.swap _ _ _
  exact ⟨hcp,
    (c4_label_table_order_independent [filePearOnly, filePearApple]
      [fileApplePear, filePearOnly] hcp).1⟩

lemma pyInt_intCast (n : ℤ) : pyInt (n : ℚ) = n := by
  unfold pyInt
  rw [Rat.intCast_num, Rat.intCast_den]
  exact Int.tdiv_one n

lemma truncPoint_idem (p : ℚ × ℚ) : truncPoint (truncPoint p) = truncPoint p := by
  unfold truncPoint
  simp [pyInt_intCast]


lemma shape_roundtrip (s : Shape) (h : s.shape_type = polygonStr) :
    labelmeShapeToRegion s = Except.ok (polyRegion s) ∧
    viaRegionToShape (polyRegion s) = Except.ok (truncShape s) := by
  constructor
  · unfold labelmeShapeToRegion polyRegion
    rw [if_pos h]
  · unfold viaRegionToShape polyRegion truncShape
    rw [if_pos rfl, if_pos (by simp)]
    have hpts : ((s.points.map (fun p => (pyInt p.1 : ℚ))).zip
        (s.points.map (fun p => (pyInt p.2 : ℚ)))).map truncPoint =
        s.points.map truncPoint := by
      rw [List.zip_map', List.map_map]
      exact List.map_congr_left (fun p _ => truncPoint_idem p)
    rw [hpts]

lemma mapExcept_region_eq (shapes : List Shape)
    (h : ∀ s ∈ shapes, s.shape_type = polygonStr) :
    mapExcept labelmeShapeToRegion shapes = Except.ok (shapes.map polyRegion) := by
  induction shapes with
  | nil => rfl
  | cons s ss ih =>
    obtain ⟨hr1, _⟩ := shape_roundtrip s (h s (List.mem_cons_self s ss))
    simp only [mapExcept, hr1,
      ih (fun t ht => h t (List.mem_cons_of_mem s ht)), List.map_cons]

lemma mapExcept_via_eq (shapes : List Shape)
    (h : ∀ s ∈ shapes, s.shape_type = polygonStr) :
    mapExcept viaRegionToShape (shapes.map polyRegion) = Except.ok (shapes.map truncShape) := by
  induction shapes with
  | nil => rfl
  | cons s ss ih =>
    obtain ⟨_, hr2⟩ := shape_roundtrip s (h s (List.mem_cons_self s ss))
    simp only [List.map_cons, mapExcept, hr2,
      ih (fun t ht => h t (List.mem_cons_of_mem s ht))]

lemma mapExcept_region_err (shapes : List Shape)
    (h : ∃ s ∈ shapes, s.shape_type ≠ polygonStr) :
    mapExcept labelmeShapeToRegion shapes = Except.error ConvError.BadShapeKind := by
  induction shapes with
  | nil =>
    rcases h with ⟨s, hs, _⟩
    cases hs
  | cons s ss ih =>
    by_cases hp : s.shape_type = polygonStr
    · rcases h with ⟨t, ht, htne⟩
      rcases List.mem_cons.mp ht with rfl | htt
      · exact absurd hp htne
      · obtain ⟨hr1, _⟩ := shape_roundtrip s hp
        simp only [mapExcept, hr1, ih ⟨t, htt, htne⟩]
    · have hs : labelmeShapeToRegion s = Except.error ConvError.BadShapeKind := by
        unfold labelmeShapeToRegion
        rw [if_neg hp]
      simp only [mapExcept, hs]

lemma labelme2via_doc_aux_err (corpus : List (String × AnnotationFile × ℕ)) :
    ∀ acc, (∃ e ∈ corpus, ∃ s ∈ e.2.1.shapes, s.shape_type ≠ polygonStr) →
    labelme2via_doc_aux acc corpus = Except.error ConvError.BadShapeKind := by
  induction corpus with
  | nil =>
    intro acc h
    rcases h with ⟨e, he, _⟩
    cases he
  | cons e es ih =>
    intro acc h
    rcases h with ⟨t, ht, hts⟩
    rcases List.mem_cons.mp ht with rfl | htt
    · have hfile : labelme2via_file t.2.1 t.1 t.2.2 =
          Except.error ConvError.BadShapeKind := by
        unfold labelme2via_file
        rw [mapExcept_region_err _ hts]
      simp only [labelme2via_doc_aux, hfile]
    · by_cases hbad : ∃ s ∈ e.2.1.shapes, s.shape_type ≠ polygonStr
      · have hfile : labelme2via_file e.2.1 e.1 e.2.2 =
            Except.error ConvError.BadShapeKind := by
          unfold labelme2via_file
          rw [mapExcept_region_err _ hbad]
        simp only [labelme2via_doc_aux, hfile]
      · push_neg at hbad
        have hfile : labelme2via_file e.2.1 e.1 e.2.2 = Except.ok
            { filename := e.1, size := e.2.2
              regions := e.2.1.shapes.map polyRegion } := by
          unfold labelme2via_file
          rw [mapExcept_region_eq _ hbad]
        simp only [labelme2via_doc_aux, hfile]
        exact ih _ ⟨t, htt, hts⟩

lemma labelme2via_doc_err (corpus : List (String × AnnotationFile × ℕ))
    (h : ∃ e ∈ corpus, ∃ s ∈ e.2.1.shapes, s.shape_type ≠ polygonStr) :
    labelme2via_doc corpus = Except.error ConvError.BadShapeKind :=
  labelme2via_doc_aux_err corpus [] h

lemma rectLines_filter (tbl : LabelTable) (imgW imgH : ℚ) (ss : List Shape) :
    rectLines tbl imgW imgH ss =
      rectLines tbl imgW imgH (ss.filter (fun s => s.shape_type == rectangleStr)) := by
  induction ss with
  | nil => rfl
  | cons s ss ih =>
    by_cases hs : s.shape_type = rectangleStr
    · rw [List.filter_cons_of_pos (by simp [hs])]
      simp only [rectLines]
      rw [ih]
    · rw [List.filter_cons_of_neg (by simp [hs])]
      have hskip : rectShapeLine tbl imgW imgH s = Except.ok none := by
        unfold rectShapeLine
        rw [if_neg hs]
      simp only [rectLines, hskip]
      exact ih

/-- C5: in the A-to-C conversion, any shape whose kind is not polygon is
a hard failure aborting the whole conversion — the format-C document is
never produced — whereas the rectangle A-to-B converter skips shapes of
non-matching kind and continues: its emitted lines on any shape list
equal those on the rectangles-only sublist. -/
theorem c5_via_hard_failure (corpus : List (String × AnnotationFile × ℕ))
    (h : ∃ e ∈ corpus, ∃ s ∈ e.2.1.shapes, s.shape_type ≠ polygonStr) :
    labelme2via_doc corpus = Except.error ConvError.BadShapeKind ∧
    ∀ (tbl : LabelTable) (imgW imgH : ℚ) (ss : List Shape),
      rectLines tbl imgW imgH ss =
        rectLines tbl imgW imgH (ss.filter (fun s => s.shape_type == rectangleStr)) :=
  ⟨labelme2via_doc_err corpus h,
    fun tbl imgW imgH ss => rectLines_filter tbl imgW imgH ss⟩


/-- Witness for C5 at a one-file corpus holding a circle shape. -/
theorem c5_via_hard_failure_witness :
    (∃ e ∈ [(("img.jpg" : String), circleShapeFile, (9 : ℕ))],
      ∃ s ∈ e.2.1.shapes, s.shape_type ≠ polygonStr) ∧
    labelme2via_doc [(("img.jpg" : String), circleShapeFile, (9 : ℕ))] =
      Except.error ConvError.BadShapeKind :=
  ⟨by decide, (c5_via_hard_failure [(("img.jpg" : String), circleShapeFile, (9 : ℕ))]
    (by decide)).1⟩

lemma dictInsert_notmem (doc : List (String × ViaRecord)) (k : String) (v : ViaRecord)
    (h : k ∉ doc.map Prod.fst) :
    dictInsert doc k v = doc ++ [(k, v)] := by
  induction doc with
  | nil => rfl
  | cons p rest ih =>
    obtain ⟨k', v'⟩ := p
    simp only [List.map_cons, List.mem_cons] at h
    push_neg at h
    simp only [dictInsert]
    rw [if_neg (fun hc => h.1 hc.symm), ih h.2]
    rfl

lemma labelme2via_doc_aux_ok (corpus : List (String × AnnotationFile × ℕ)) :
    ∀ acc : List (String × ViaRecord),
    (∀ e ∈ corpus, ∀ s ∈ e.2.1.shapes, s.shape_type = polygonStr) →
    (corpus.map (fun e => e.1 ++ toString e.2.2)).Nodup →
    (∀ e ∈ corpus, (e.1 ++ toString e.2.2) ∉ acc.map Prod.fst) →
    labelme2via_doc_aux acc corpus = Except.ok (acc ++ corpus.map (fun e =>
      (e.1 ++ toString e.2.2,
       { filename := e.1, size := e.2.2
         regions := e.2.1.shapes.map polyRegion }))) := by
  induction corpus with
  | nil =>
    intro acc _ _ _
    simp [labelme2via_doc_aux]
  | cons e es ih =>
    intro acc hall hkeys hdisj
    have hfile : labelme2via_file e.2.1 e.1 e.2.2 = Except.ok
        { filename := e.1, size := e.2.2
          regions := e.2.1.shapes.map polyRegion } := by
      unfold labelme2via_file
      rw [mapExcept_region_eq _ (hall e (List.mem_cons_self e es))]
    have hkeys2 := hkeys
    rw [List.map_cons] at hkeys2
    have hpair := List.nodup_cons.mp hkeys2
    have hdisj2 : ∀ t ∈ es, (t.1 ++ toString t.2.2) ∉
        (acc ++ [(e.1 ++ toString e.2.2,
          ({ filename := e.1, size := e.2.2
             regions := e.2.1.shapes.map polyRegion } : ViaRecord))]).map Prod.fst := by
      intro t ht hin
      rw [List.map_append, List.mem_append] at hin
      rcases hin with hin | hin
      · exact hdisj t (List.mem_cons_of_mem e ht) hin
      · simp only [List.map_cons, List.map_nil, List.mem_singleton] at hin
        apply hpair.1
        rw [← hin]
        exact List.mem_map_of_mem _ ht
    simp only [labelme2via_doc_aux, hfile]
    rw [dictInsert_notmem _ _ _ (hdisj e (List.mem_cons_self e es)),
      ih _ (fun t ht => hall t (List.mem_cons_of_mem e ht)) hpair.2 hdisj2]
    simp [List.append_assoc]

lemma mapExcept_records_ok (dims : String → ℚ × ℚ)
    (corpus : List (String × AnnotationFile × ℕ))
    (hall : ∀ e ∈ corpus, ∀ s ∈ e.2.1.shapes, s.shape_type = polygonStr) :
    mapExcept (fun r => viaRecordToLabelme r (dims r.filename).1 (dims r.filename).2)
      (corpus.map (fun e =>
        { filename := e.1, size := e.2.2
          regions := e.2.1.shapes.map polyRegion })) =
      Except.ok (corpus.map (fun e =>
        { imagePath := some e.1, imageWidth := (dims e.1).1
          imageHeight := (dims e.1).2
          shapes := e.2.1.shapes.map truncShape })) := by
  induction corpus with
  | nil => rfl
  | cons e es ih =>
    have hrec : viaRecordToLabelme
        { filename := e.1, size := e.2.2
          regions := e.2.1.shapes.map polyRegion }
        (dims e.1).1 (dims e.1).2 = Except.ok
        { imagePath := some e.1, imageWidth := (dims e.1).1
          imageHeight := (dims e.1).2
          shapes := e.2.1.shapes.map truncShape } := by
      simp only [viaRecordToLabelme,
        mapExcept_via_eq _ (hall e (List.mem_cons_self e es))]
    simp only [List.map_cons, mapExcept, hrec,
      ih (fun t ht => hall t (List.mem_cons_of_mem e ht))]

/-- Counterexample to C3 as stated: two format-A files can collide on
the format-C identity key.  Inputs `a.jpg.json` and `a.json.json`, both
with image format `.jpg`, yield the same image name `a.jpg.jpg` (Python
`replace` substitutes every occurrence of `.json`) referencing the same
image file, hence the same byte size; the dict assignment then
overwrites the first file's record, and after the round trip no shape
carries the first file's label, although the corpus is all-polygon. -/
theorem c3_roundtrip_counterexample :
    (∀ e ∈ collidingCorpus, ∀ s ∈ e.2.1.shapes, s.shape_type = polygonStr) ∧
    (∃ e ∈ collidingCorpus, ∃ s ∈ e.2.1.shapes, s.label = "first") ∧
    ∃ doc, labelme2via_doc collidingCorpus = Except.ok doc ∧
      ∃ gs, via2labelme_run [doc.map Prod.snd] (fun _ => (4, 4)) = Except.ok gs ∧
        ∀ g ∈ gs, ∀ t ∈ g.shapes, t.label ≠ "first" := by
  refine ⟨by decide, by decide,
    [(("a.jpg.jpg5" : String),
      { filename := "a.jpg.jpg", size := 5
        regions := [{ name := polygonStr, all_points_x := [], all_points_y := []
                      label := "second" }] })], rfl,
    [{ imagePath := some ("a.jpg.jpg"), imageWidth := 4, imageHeight := 4
       shapes := [{ label := "second", points := [], shape_type := polygonStr
                    group_id := none }] }], rfl, by decide⟩

/-- C3 amended: for every format-A corpus in which all shapes are
polygons and the format-C identity keys (image name concatenated with
byte size) of the files are pairwise distinct, converting the corpus to
format-C and converting that document back yields one annotation per
input file, in order, preserving every polygon shape's label exactly and
its point list up to integer truncation of each coordinate. -/
theorem c3_roundtrip_amended (corpus : List (String × AnnotationFile × ℕ))
    (dims : String → ℚ × ℚ)
    (hall : ∀ e ∈ corpus, ∀ s ∈ e.2.1.shapes, s.shape_type = polygonStr)
    (hkeys : (corpus.map (fun e => e.1 ++ toString e.2.2)).Nodup) :
    ∃ doc, labelme2via_doc corpus = Except.ok doc ∧
      ∃ gs, via2labelme_run [doc.map Prod.snd] dims = Except.ok gs ∧
        List.Forall₂ (fun e g =>
            List.Forall₂ (fun s t => t.label = s.label ∧ t.points = s.points.map truncPoint)
              e.2.1.shapes g.shapes)
          corpus gs := by
  have hdoc : labelme2via_doc corpus = Except.ok (corpus.map (fun e =>
      (e.1 ++ toString e.2.2,
       { filename := e.1, size := e.2.2
         regions := e.2.1.shapes.map polyRegion }))) := by
    have := labelme2via_doc_aux_ok corpus [] hall hkeys (by simp)
    simpa [labelme2via_doc] using this
  refine ⟨_, hdoc, ?_⟩
  have hvals : (corpus.map (fun e =>
      (e.1 ++ toString e.2.2,
       ({ filename := e.1, size := e.2.2
          regions := e.2.1.shapes.map polyRegion } : ViaRecord)))).map Prod.snd
      = corpus.map (fun e =>
        ({ filename := e.1, size := e.2.2
           regions := e.2.1.shapes.map polyRegion } : ViaRecord)) := by
    rw [List.map_map]
    rfl
  refine ⟨corpus.map (fun e =>
      { imagePath := some e.1, imageWidth := (dims e.1).1
        imageHeight := (dims e.1).2
        shapes := e.2.1.shapes.map truncShape }), ?_, ?_⟩
  · have hstep : via2labelme_run [(corpus.map (fun e =>
        (e.1 ++ toString e.2.2,
         ({ filename := e.1, size := e.2.2
            regions := e.2.1.shapes.map polyRegion } : ViaRecord)))).map Prod.snd] dims
        = mapExcept (fun r => viaRecordToLabelme r (dims r.filename).1 (dims r.filename).2)
          ((corpus.map (fun e =>
            (e.1 ++ toString e.2.2,
             ({ filename := e.1, size := e.2.2
                regions := e.2.1.shapes.map polyRegion } : ViaRecord)))).map Prod.snd) := rfl
    rw [hstep, hvals, mapExcept_records_ok dims corpus hall]
  · rw [List.forall₂_map_right_iff, List.forall₂_same]
    intro e _
    show List.Forall₂ _ e.2.1.shapes (e.2.1.shapes.map truncShape)
    rw [List.forall₂_map_right_iff, List.forall₂_same]
    intro s _
    exact ⟨rfl, rfl⟩

/-- Witness for the amended C3 at a concrete two-file polygon corpus
with distinct identity keys. -/
theorem c3_roundtrip_amended_witness :
    (∀ e ∈ roundtripCorpus, ∀ s ∈ e.2.1.shapes, s.shape_type = polygonStr) ∧
    ((roundtripCorpus.map (fun e => e.1 ++ toString e.2.2)).Nodup) ∧
    ∃ doc, labelme2via_doc roundtripCorpus = Except.ok doc ∧
      ∃ gs, via2labelme_run [doc.map Prod.snd] (fun _ => (8, 8)) = Except.ok gs ∧
        List.Forall₂ (fun e g =>
            List.Forall₂ (fun s t => t.label = s.label ∧ t.points = s.points.map truncPoint)
              e.2.1.shapes g.shapes)
          roundtripCorpus gs :=
  ⟨by decide, by decide,
    c3_roundtrip_amended roundtripCorpus (fun _ => (8, 8)) (by decide) (by decide)⟩

/-- C6: unless the format-C input directory holds exactly one JSON
document, the C-to-A conversion fails with the cardinality error before
any output is produced. -/
theorem c6_input_cardinality (docs : List (List ViaRecord)) (dims : String → ℚ × ℚ)
    (h : docs.length ≠ 1) :
    via2labelme_run docs dims = Except.error ConvError.InputCardinalityError := by
  cases docs with
  | nil => rfl
  | cons a t =>
    cases t with
    | nil => simp at h
    | cons b t2 => rfl

/-- Witness for C6 at a directory holding two JSON documents. -/
theorem c6_input_cardinality_witness :
    ([([] : List ViaRecord), []].length ≠ 1) ∧
    via2labelme_run [([] : List ViaRecord), []] (fun _ => (1, 1)) =
      Except.error ConvError.InputCardinalityError :=
  ⟨by decide, c6_input_cardinality [([] : List ViaRecord), []] (fun _ => (1, 1)) (by decide)⟩


/-- Counterexample to C7 as stated: this record contains a region whose
x and y coordinate lists have unequal lengths, yet its conversion fails
with the shape-kind error rather than the point-mismatch error, because
the source checks the region kind before the list lengths. -/
theorem c7_point_mismatch_counterexample :
    (∃ t ∈ mismatchedCircleRecord.regions,
      t.all_points_x.length ≠ t.all_points_y.length) ∧
    viaRecordToLabelme mismatchedCircleRecord 4 4 ≠
      Except.error ConvError.PointMismatchError ∧
    viaRecordToLabelme mismatchedCircleRecord 4 4 =
      Except.error ConvError.BadShapeKind :=
  ⟨by decide, by decide, by decide⟩

lemma mapExcept_via_mismatch (regions : List ViaRegion)
    (hpoly : ∀ t ∈ regions, t.name = polygonStr)
    (hmis : ∃ t ∈ regions, t.all_points_x.length ≠ t.all_points_y.length) :
    mapExcept viaRegionToShape regions = Except.error ConvError.PointMismatchError := by
  induction regions with
  | nil =>
    rcases hmis with ⟨t, ht, _⟩
    cases ht
  | cons r rs ih =>
    have hrp : r.name = polygonStr := hpoly r (List.mem_cons_self r rs)
    by_cases hlen : r.all_points_x.length = r.all_points_y.length
    · rcases hmis with ⟨t, ht, htm⟩
      rcases List.mem_cons.mp ht with rfl | htt
      · exact absurd hlen htm
      · have hrok : viaRegionToShape r = Except.ok
            { label := r.label
              points := (r.all_points_x.zip r.all_points_y).map truncPoint
              shape_type := r.name, group_id := none } := by
          unfold viaRegionToShape
          rw [if_pos hrp, if_pos hlen]
        simp only [mapExcept, hrok,
          ih (fun u hu => hpoly u (List.mem_cons_of_mem r hu)) ⟨t, htt, htm⟩]
    · have hrerr : viaRegionToShape r = Except.error ConvError.PointMismatchError := by
        unfold viaRegionToShape
        rw [if_pos hrp, if_neg hlen]
      simp only [mapExcept, hrerr]

/-- C7 amended: for every record whose regions all have polygon kind, if
some region's x and y coordinate lists have unequal lengths then the
conversion of that record fails with the point-mismatch error and no
output annotation is produced for it; when an earlier region has a
non-polygon kind, the run instead aborts with the shape-kind error. -/
theorem c7_point_mismatch_amended (r : ViaRecord) (imgW imgH : ℚ)
    (hpoly : ∀ t ∈ r.regions, t.name = polygonStr)
    (hmis : ∃ t ∈ r.regions, t.all_points_x.length ≠ t.all_points_y.length) :
    viaRecordToLabelme r imgW imgH = Except.error ConvError.PointMismatchError := by
  unfold viaRecordToLabelme
  rw [mapExcept_via_mismatch r.regions hpoly hmis]

/-- Witness for the amended C7 at a concrete mismatched polygon record. -/
theorem c7_point_mismatch_amended_witness :
    (∀ t ∈ mismatchedPolyRecord.regions, t.name = polygonStr) ∧
    viaRecordToLabelme mismatchedPolyRecord 4 4 =
      Except.error ConvError.PointMismatchError :=
  ⟨by decide, c7_point_mismatch_amended mismatchedPolyRecord 4 4 (by decide) (by decide)⟩

/-- C8 (code bug): `create_empty_txt_yolo` never creates a file.  On a
directory holding the image `a.jpg` and no text file, the claim requires
`a.txt` to be created on the first run; the source instead calls the
`glob` module object as a function in its first statement and crashes. -/
theorem c8_create_empty_txt_crashes :
    create_empty_txt_yolo [("a.jpg")] jpgDefault = Except.error PyError.moduleNotCallable :=
  rfl

/-- Counterexample to C9 as stated: for the path `image`, which has no
dot — so the image-format suffix is absent from the path field — the
converter neither falls back to `.jpg` nor emits a diagnostic: it
produces the suffix `.image`. -/
theorem c9_format_fallback_counterexample :
    detect_image_format (some ("image")) = ((".image" : String), false) ∧
    ((".image" : String)) ≠ jpgDefault :=
  ⟨by decide, by decide⟩

/-- C9 amended: the A-to-B converters fall back to the default suffix
`.jpg` and emit a diagnostic exactly when the path field cannot be read
(absent, or its read raises); when a path string is read, no diagnostic
is emitted and the suffix is `.` followed by the part of the path after
its last dot — for a dotless path this is `.` plus the whole path, not
the default.  In every case processing of the file continues: the
emitted text content never depends on the path field. -/
theorem c9_format_fallback (ip : Option String) :
    ((detect_image_format ip).2 = true ↔ ip = none) ∧
    (ip = none → detect_image_format ip = (jpgDefault, true)) ∧
    (∀ p, ip = some p →
      detect_image_format ip = (dotStr ++ lastSplitComponent p, false)) ∧
    (∀ tbl f, labelmerect2yolo_file tbl { f with imagePath := none } =
      labelmerect2yolo_file tbl f) := by
  refine ⟨?_, ?_, ?_, ?_⟩
  · cases ip with
    | none => simp [detect_image_format]
    | some p => simp [detect_image_format]
  · rintro rfl
    rfl
  · rintro p rfl
    rfl
  · intro tbl f
    rfl

/-- Witness for the amended C9 at the path `cat.png`. -/
theorem c9_format_fallback_witness :
    detect_image_format (some ("cat.png")) =
      (dotStr ++ lastSplitComponent ("cat.png"), false) :=
  (c9_format_fallback (some ("cat.png"))).2.2.1 ("cat.png") rfl
